import Mathlib

/-!
Verification of the streaming segmentation pipeline of prosaic
(src/prosaic/parsing.py), shallowly embedded in Lean.

Strings are modelled as `List Char`; the character tables `BAD_CHARS`,
`CLAUSE_MARKERS`, `SENTENCE_MARKERS` are modelled as lists with membership
via `List.contains`, matching the Python dict lookups `D.get(c, False)`.
External collaborators (the nlp analyzer and the storage session) are
modelled as oracles.
-/

namespace Prosaic

/-- Space character (Python `' '`). -/
def SPACE : Char := Char.ofNat 32

/-- The `BAD_CHARS` table of parsing.py: characters stripped from output.
In order: `(` `)` left-brace right-brace `[` `]` backtick apostrophe
double-quote newline left-curly-quote right-curly-quote left-guillemet
right-guillemet backslash underscore.  (The apostrophe key is repeated in
the Python source; a duplicate dict key is a single entry.) -/
def BAD_CHARS : List Char :=
  [Char.ofNat 40, Char.ofNat 41, Char.ofNat 123, Char.ofNat 125,
   Char.ofNat 91, Char.ofNat 93, Char.ofNat 96, Char.ofNat 39,
   Char.ofNat 34, Char.ofNat 10, Char.ofNat 8220, Char.ofNat 8221,
   Char.ofNat 171, Char.ofNat 187, Char.ofNat 92, Char.ofNat 95]

/-- The `CLAUSE_MARKERS` table: comma, semicolon, colon. -/
def CLAUSE_MARKERS : List Char := [Char.ofNat 44, Char.ofNat 59, Char.ofNat 58]

/-- The `SENTENCE_MARKERS` table: question mark, period, exclamation mark. -/
def SENTENCE_MARKERS : List Char := [Char.ofNat 63, Char.ofNat 46, Char.ofNat 33]

/-- Minimum buffered length for emission (parsing.py line 72). -/
def LONG_ENOUGH : Nat := 20

/-- Reference chunk size for `text.read` (parsing.py line 50). -/
def CHUNK_SIZE : Nat := 10000

/-- Python `s.endswith(" ")` on the line buffer. -/
def endsWithSpace (s : List Char) : Bool :=
  match s.getLast? with
  | some c => c == SPACE
  | none => false

/-- The mutable state of `process_text_stream`'s scanning loop:
`line_no` is the sequence counter, `ultimate_text` the document
accumulator, `line_buff` the current candidate buffer, and `emissions`
records the `(line_no, line_buff)` pairs submitted to the pool, in
submission order. -/
structure SegState where
  line_no : Nat
  ultimate_text : List Char
  line_buff : List Char
  emissions : List (Nat × List Char)
deriving DecidableEq

/-- State at the top of `process_text_stream` (line_no = 0, empty
accumulator, no submissions). -/
def initState : SegState := ⟨0, [], [], []⟩

/-- One iteration of the `for c in chunk` body of `process_text_stream`
(parsing.py lines 105-131): bad characters collapse to a single space,
clause markers emit when the buffer is long enough and are otherwise
retained in the buffer, sentence markers emit when the buffer is long
enough and reset the buffer unconditionally, everything else is appended. -/
def processChar (st : SegState) (c : Char) : SegState :=
  if BAD_CHARS.contains c then
    if endsWithSpace st.line_buff then st
    else { st with line_buff := st.line_buff ++ [SPACE] }
  else if CLAUSE_MARKERS.contains c then
    if st.line_buff.length > LONG_ENOUGH then
      { st with ultimate_text := st.ultimate_text ++ st.line_buff,
                emissions := st.emissions ++ [(st.line_no, st.line_buff)],
                line_no := st.line_no + 1,
                line_buff := [] }
    else { st with line_buff := st.line_buff ++ [c] }
  else if SENTENCE_MARKERS.contains c then
    if st.line_buff.length > LONG_ENOUGH then
      { st with ultimate_text := st.ultimate_text ++ st.line_buff,
                emissions := st.emissions ++ [(st.line_no, st.line_buff)],
                line_no := st.line_no + 1,
                line_buff := [] }
    else { st with line_buff := [] }
  else { st with line_buff := st.line_buff ++ [c] }

/-- Scanning one chunk character by character. -/
def processChunk (st : SegState) (chunk : List Char) : SegState :=
  chunk.foldl processChar st

/-- The chunk loop of `process_text_stream` (lines 103-133).  Note that
the source sets `line_buff = ""` at the top of each iteration of the
`while` loop (line 104), so the candidate buffer is reset at every chunk
boundary; `line_no`, `ultimate_text` and the submitted futures persist. -/
def processStream (chunks : List (List Char)) : SegState :=
  chunks.foldl (fun st chunk => processChunk { st with line_buff := [] } chunk) initState

/-- Successive reads of `text.read n`, fuelled by the text length:
chunks of size `n` until the text is exhausted. -/
def readChunksAux : Nat → Nat → List Char → List (List Char)
  | 0, _, _ => []
  | _ + 1, _, [] => []
  | fuel + 1, n, c :: cs => (c :: cs).take n :: readChunksAux fuel n ((c :: cs).drop n)

/-- Splitting a text into the successive chunks `text.read n` returns. -/
def readChunks (n : Nat) (text : List Char) : List (List Char) :=
  readChunksAux text.length n text

/-! ## Worker units (`process_line`) and the ingest call

The nlp analyzer and the storage session are external collaborators; they
are modelled as oracles that either produce a value or fail. -/

/-- Errors a worker unit can raise (spec section 7 taxonomy). -/
inductive WorkerErr
  | notFound
  | extractionFailure
  | storageError
deriving DecidableEq

/-- A persisted phrase row, with the fields `process_line` constructs. -/
structure PhraseRec where
  stems : List (List Char)
  raw : List Char
  alliteration : Bool
  rhyme_sound : List Char
  syllables : Nat
  line_no : Nat
  source_id : Nat
deriving DecidableEq

/-- Oracle for the external nlp analyzer: each feature computation may
fail (raising inside the worker). -/
structure Nlp where
  stem_sentence : List Char → Except WorkerErr (List (List Char))
  rhyme_sound : List Char → Except WorkerErr (List Char)
  count_syllables : List Char → Except WorkerErr Nat
  has_alliteration : List Char → Except WorkerErr Bool

/-- One worker unit of work (parsing.py lines 74-88), given the set of
source ids present in storage.  Returns the list of phrase rows the unit
durably wrote, and the error it raised, if any.  Faithful to the source
order: resolve the source, compute the four features, and only then
`session.add` + `session.commit` the single phrase row. -/
def process_line (nlp : Nlp) (sources : List Nat) (source_id : Nat)
    (line_no : Nat) (line : List Char) : List PhraseRec × Option WorkerErr :=
  if sources.contains source_id then
    match nlp.stem_sentence line with
    | .error e => ([], some e)
    | .ok stems =>
      match nlp.rhyme_sound line with
      | .error e => ([], some e)
      | .ok rhyme =>
        match nlp.count_syllables line with
        | .error e => ([], some e)
        | .ok syllables =>
          match nlp.has_alliteration line with
          | .error e => ([], some e)
          | .ok alliteration =>
            ([{ stems := stems, raw := line, alliteration := alliteration,
                rhyme_sound := rhyme, syllables := syllables,
                line_no := line_no, source_id := source_id }], none)
  else ([], some .notFound)

/-- Observable outcome of `process_text_stream`: the source's content
field after the call, the phrase rows committed by workers, and the
error the call raised, if any. -/
structure IngestResult where
  content : List Char
  phrases : List (Nat × List Char)
  err : Option WorkerErr
deriving DecidableEq

/-- The `as_completed` barrier loop (parsing.py lines 136-140): walk the
futures in completion order and raise the first error observed. -/
def firstFailure (outcome : Nat × List Char → Option WorkerErr) :
    List (Nat × List Char) → Option WorkerErr
  | [] => none
  | u :: us =>
    match outcome u with
    | some e => some e
    | none => firstFailure outcome us

/-- The whole ingest call (parsing.py lines 90-146).  `outcome` gives each
submitted unit's result; `order` is the completion order `as_completed`
observes.  The source's content is committed as `''` before streaming;
every submitted unit still runs to completion when another fails (the
pool is shut down with wait, nothing is cancelled or rolled back), so the
committed rows are exactly the successful units'.  The final
`source.content = ultimate_text` commit happens only when the barrier
loop raises no error. -/
def process_text_stream (outcome : Nat × List Char → Option WorkerErr)
    (order : List (Nat × List Char)) (chunks : List (List Char)) : IngestResult :=
  let st := processStream chunks
  let rows := st.emissions.filter (fun u => (outcome u).isNone)
  match firstFailure outcome order with
  | some e => { content := [], phrases := rows, err := some e }
  | none => { content := st.ultimate_text, phrases := rows, err := none }

/-! ## Invariants of the scanning loop -/

/-- Every emitted candidate is longer than `LONG_ENOUGH`. -/
def emissionsLong (st : SegState) : Prop :=
  ∀ p ∈ st.emissions, LONG_ENOUGH < p.2.length

/-- A character that is neither filtered nor a sentence marker. -/
def cleanChar (c : Char) : Prop :=
  BAD_CHARS.contains c = false ∧ SENTENCE_MARKERS.contains c = false

/-- The buffer and every emitted candidate hold only clean characters. -/
def cleanState (st : SegState) : Prop :=
  (∀ c ∈ st.line_buff, cleanChar c) ∧ ∀ p ∈ st.emissions, ∀ c ∈ p.2, cleanChar c

/-- The sequence counter equals the number of emissions, and the emitted
sequence numbers are `0, 1, 2, ...` in emission order. -/
def seqInv (st : SegState) : Prop :=
  st.line_no = st.emissions.length ∧
  st.emissions.map Prod.fst = List.range st.emissions.length

/-- The document accumulator is the concatenation of all emitted
candidates, in emission order. -/
def accumInv (st : SegState) : Prop :=
  st.ultimate_text = (st.emissions.map Prod.snd).flatten

/-! ## Concrete inputs used by the claims -/

/-- A 22-character phrase: 21 letters and a comma, so the comma emits. -/
def phrase22 : List Char := "abcdefghijklmnopqrstu,".toList

/-- The candidate `phrase22` emits: its 21 letters. -/
def head21 : List Char := "abcdefghijklmnopqrstu".toList

/-- First 12 characters of `phrase22`. -/
def pre12 : List Char := "abcdefghijkl".toList

/-- Last 10 characters of `phrase22`. -/
def post10 : List Char := "mnopqrstu,".toList

/-- 454 copies of `phrase22`: 9988 characters. -/
def P454 : List Char := (List.replicate 454 phrase22).flatten

/-- A 10010-character text of 455 phrases.  The reference 10000-character
chunking splits the 455th phrase across the chunk boundary. -/
def c1_text : List Char := (List.replicate 455 phrase22).flatten

/-- A sentence with no clause markers whose period triggers an emission. -/
def c2_text : List Char := "this sentence is long enough.".toList

/-- Three clause-emitted phrases for the failure-scenario witness. -/
def c3_chunks : List (List Char) :=
  ["aaaaaaaaaaaaaaaaaaaaa,bbbbbbbbbbbbbbbbbbbbb,ccccccccccccccccccccc,".toList]

/-- Worker outcome oracle where the unit with sequence number 1 fails. -/
def c3_outcome : Nat × List Char → Option WorkerErr :=
  fun u => if u.1 == 1 then some .storageError else none

/-- A completion order: the three units finish in reverse submission order. -/
def c3_order : List (Nat × List Char) := (processStream c3_chunks).emissions.reverse

/-- An analyzer oracle whose every step succeeds. -/
def okNlp : Nlp :=
  ⟨fun l => .ok [l], fun l => .ok l, fun l => .ok l.length, fun _ => .ok false⟩

/-- An analyzer oracle whose syllable counter raises. -/
def failNlp : Nlp :=
  { okNlp with count_syllables := fun _ => .error .extractionFailure }

/-! ## Facts about the character tables -/

/-- A clause marker is neither a bad character nor a sentence marker. -/
theorem clause_not_bad_not_sentence (c : Char) (h : CLAUSE_MARKERS.contains c = true) :
    BAD_CHARS.contains c = false ∧ SENTENCE_MARKERS.contains c = false := by
  simp only [CLAUSE_MARKERS, List.contains_cons, List.contains_nil, Bool.or_eq_true,
    beq_iff_eq] at h
  rcases h with h | h | h | h
  · subst h; decide
  · subst h; decide
  · subst h; decide
  · simp at h

/-- A sentence marker is neither a bad character nor a clause marker. -/
theorem sentence_not_bad_not_clause (c : Char) (h : SENTENCE_MARKERS.contains c = true) :
    BAD_CHARS.contains c = false ∧ CLAUSE_MARKERS.contains c = false := by
  simp only [SENTENCE_MARKERS, List.contains_cons, List.contains_nil, Bool.or_eq_true,
    beq_iff_eq] at h
  rcases h with h | h | h | h
  · subst h; decide
  · subst h; decide
  · subst h; decide
  · simp at h

/-! ## Stepping lemmas for the scanner -/

/-- Scanning a concatenation scans the two parts in order. -/
theorem processChunk_append (st : SegState) (a b : List Char) :
    processChunk st (a ++ b) = processChunk (processChunk st a) b :=
  List.foldl_append _ _ _ _

/-- `phrase22` splits at index 12. -/
theorem phrase22_eq : phrase22 = pre12 ++ post10 := rfl

set_option maxHeartbeats 1000000 in
/-- Scanning the 12 ordinary letters of `pre12` just buffers them. -/
theorem processChunk_pre12 (n : Nat) (u : List Char) (e : List (Nat × List Char)) :
    processChunk ⟨n, u, [], e⟩ pre12 = ⟨n, u, pre12, e⟩ := rfl

set_option maxHeartbeats 1000000 in
/-- Scanning `post10` after `pre12` is buffered: the nine letters fill the
buffer to 21 characters and the comma emits it. -/
theorem processChunk_post10_after_pre12 (n : Nat) (u : List Char) (e : List (Nat × List Char)) :
    processChunk ⟨n, u, pre12, e⟩ post10 = ⟨n + 1, u ++ head21, [], e ++ [(n, head21)]⟩ := rfl

set_option maxHeartbeats 1000000 in
/-- Scanning `post10` from an empty buffer: nine letters then a comma on a
9-character buffer, which is not long enough, so the comma is buffered. -/
theorem processChunk_post10 (n : Nat) (u : List Char) (e : List (Nat × List Char)) :
    processChunk ⟨n, u, [], e⟩ post10 = ⟨n, u, post10, e⟩ := rfl

/-- Scanning one whole `phrase22` from an empty buffer emits `head21` and
advances the sequence counter. -/
theorem processChunk_phrase22 (n : Nat) (u : List Char) (e : List (Nat × List Char)) :
    processChunk ⟨n, u, [], e⟩ phrase22 = ⟨n + 1, u ++ head21, [], e ++ [(n, head21)]⟩ := by
  rw [phrase22_eq, processChunk_append, processChunk_pre12, processChunk_post10_after_pre12]

/-- Scanning `k` copies of `phrase22` from an empty buffer emits `head21`
`k` times with consecutive sequence numbers. -/
theorem processChunk_phrases (k : Nat) :
    ∀ (n : Nat) (u : List Char) (e : List (Nat × List Char)),
      processChunk ⟨n, u, [], e⟩ (List.replicate k phrase22).flatten =
        ⟨n + k, u ++ (List.replicate k head21).flatten, [],
         e ++ (List.range' n k).map (fun i => (i, head21))⟩ := by
  induction k with
  | zero => intro n u e; simp [processChunk]
  | succ k ih =>
    intro n u e
    rw [List.replicate_succ, List.flatten_cons, processChunk_append, processChunk_phrase22, ih]
    have hn : n + 1 + k = n + (k + 1) := by omega
    rw [hn, List.range'_succ, List.map_cons, List.append_cons, List.replicate_succ,
      List.flatten_cons, ← List.append_assoc]
    simp

/-! ## The chunked reader -/

/-- `readChunksAux` does not depend on the fuel, as long as the fuel covers
the text length and chunks are nonempty. -/
theorem readChunksAux_congr : ∀ (fuel fuel' n : Nat) (text : List Char), 0 < n →
    text.length ≤ fuel → text.length ≤ fuel' →
    readChunksAux fuel n text = readChunksAux fuel' n text := by
  intro fuel
  induction fuel with
  | zero =>
    intro fuel' n text _ hf _
    have : text = [] := List.eq_nil_of_length_eq_zero (Nat.le_zero.mp hf)
    subst this
    cases fuel' <;> rfl
  | succ fuel ih =>
    intro fuel' n text hn hf hf'
    cases text with
    | nil => cases fuel' <;> rfl
    | cons c cs =>
      cases fuel' with
      | zero => simp at hf'
      | succ fuel' =>
        simp only [readChunksAux]
        congr 1
        exact ih fuel' n ((c :: cs).drop n) hn
          (by simp only [List.length_drop]; simp at hf ⊢; omega)
          (by simp only [List.length_drop]; simp at hf' ⊢; omega)

/-- Unfolding one read: the first `n` characters, then the chunks of the
rest. -/
theorem readChunks_cons (n : Nat) (hn : 0 < n) (text : List Char) (ht : text ≠ []) :
    readChunks n text = text.take n :: readChunks n (text.drop n) := by
  cases text with
  | nil => exact absurd rfl ht
  | cons c cs =>
    show readChunksAux (cs.length + 1) n (c :: cs) = _
    simp only [readChunksAux]
    congr 1
    exact readChunksAux_congr cs.length ((c :: cs).drop n).length n ((c :: cs).drop n) hn
      (by simp only [List.length_drop]; simp; omega) (le_refl _)

/-! ## The 10010-character counterexample text -/

/-- Length of `k` replicated lists, flattened. -/
theorem flatten_replicate_length (k : Nat) (l : List Char) :
    ((List.replicate k l).flatten).length = k * l.length := by
  simp [List.length_flatten, List.map_replicate, List.sum_replicate, smul_eq_mul]

/-- `phrase22` has 22 characters. -/
theorem phrase22_len : phrase22.length = 22 := rfl

/-- `P454` has 9988 characters. -/
theorem P454_length : P454.length = 9988 := by
  show ((List.replicate 454 phrase22).flatten).length = 9988
  rw [flatten_replicate_length, phrase22_len]

/-- The counterexample text is 454 whole phrases followed by one more. -/
theorem c1_text_eq : c1_text = P454 ++ phrase22 := by
  show (List.replicate (454 + 1) phrase22).flatten = _
  rw [List.replicate_succ', List.flatten_append]
  rfl

/-- The counterexample text has 10010 characters. -/
theorem c1_text_length : c1_text.length = 10010 := by
  show ((List.replicate 455 phrase22).flatten).length = 10010
  rw [flatten_replicate_length, phrase22_len]

/-- Taking 12 characters of `phrase22` gives `pre12`. -/
theorem phrase22_take_12 : phrase22.take 12 = pre12 := by decide

/-- Dropping 12 characters of `phrase22` gives `post10`. -/
theorem phrase22_drop_12 : phrase22.drop 12 = post10 := by decide

/-- The first 10000-character read: 454 phrases and the first 12 letters
of the 455th. -/
theorem c1_take : c1_text.take 10000 = P454 ++ pre12 := by
  rw [c1_text_eq, List.take_append_eq_append_take,
    List.take_of_length_le (by rw [P454_length]; omega), P454_length,
    show (10000 - 9988 : Nat) = 12 by norm_num, phrase22_take_12]

/-- The second read: the last 10 characters of the 455th phrase. -/
theorem c1_drop : c1_text.drop 10000 = post10 := by
  rw [c1_text_eq, List.drop_append_eq_append_drop,
    List.drop_eq_nil_of_le (by rw [P454_length]; omega), P454_length,
    show (10000 - 9988 : Nat) = 12 by norm_num, phrase22_drop_12, List.nil_append]

/-- The reference chunking splits the text into exactly two reads. -/
theorem c1_chunks : readChunks CHUNK_SIZE c1_text = [P454 ++ pre12, post10] := by
  have hne : c1_text ≠ [] := by
    intro h
    have h2 := c1_text_length
    rw [h] at h2
    simp at h2
  have hpos : 0 < CHUNK_SIZE := by norm_num [CHUNK_SIZE]
  rw [readChunks_cons CHUNK_SIZE hpos c1_text hne,
    show c1_text.take CHUNK_SIZE = P454 ++ pre12 from c1_take,
    show c1_text.drop CHUNK_SIZE = post10 from c1_drop,
    readChunks_cons CHUNK_SIZE hpos post10 (by decide),
    show post10.take CHUNK_SIZE = post10 from List.take_of_length_le (by decide),
    show post10.drop CHUNK_SIZE = [] from List.drop_eq_nil_of_le (by decide)]
  rfl

/-- A stream read in one chunk is one scan of it (the buffer starts
empty either way). -/
theorem processStream_singleton (text : List Char) :
    processStream [text] = processChunk initState text := by
  show processChunk { initState with line_buff := [] } text = processChunk initState text
  rfl

/-- A stream read in two chunks: scan the first chunk, reset the buffer
(parsing.py line 104), scan the second. -/
theorem processStream_pair (a b : List Char) :
    processStream [a, b] = processChunk { processChunk initState a with line_buff := [] } b := by
  show processChunk { processChunk { initState with line_buff := [] } a with line_buff := [] } b = _
  rfl

/-- Emissions of the chunked run: 454 candidates, because the 455th
phrase straddles the chunk boundary and `line_buff` is reset at the top
of each `while` iteration. -/
theorem c1_chunked_emissions :
    (processStream (readChunks CHUNK_SIZE c1_text)).emissions =
      (List.range' 0 454).map (fun i => (i, head21)) := by
  rw [c1_chunks, processStream_pair, show initState = (⟨0, [], [], []⟩ : SegState) from rfl,
    show P454 = (List.replicate 454 phrase22).flatten from rfl,
    processChunk_append, processChunk_phrases 454 0 [] [], processChunk_pre12]
  rw [show ({ (⟨0 + 454, [] ++ (List.replicate 454 head21).flatten, pre12,
      [] ++ (List.range' 0 454).map (fun i => (i, head21))⟩ : SegState) with
      line_buff := [] } : SegState) = ⟨0 + 454, [] ++ (List.replicate 454 head21).flatten, [],
      [] ++ (List.range' 0 454).map (fun i => (i, head21))⟩ from rfl]
  rw [processChunk_post10]
  exact List.nil_append _

/-- Emissions of the single-chunk run: all 455 candidates. -/
theorem c1_single_emissions :
    (processStream [c1_text]).emissions = (List.range' 0 455).map (fun i => (i, head21)) := by
  rw [processStream_singleton, show initState = (⟨0, [], [], []⟩ : SegState) from rfl,
    show c1_text = (List.replicate 455 phrase22).flatten from rfl,
    processChunk_phrases 455 0 [] []]
  exact List.nil_append _

/-- Claim C1: refuted on the code.  Feeding `c1_text` (10010 characters,
455 comma-terminated phrases) in the reference 10000-character chunks
emits a different sequence of (sequence number, phrase) pairs than
feeding it in one chunk: the chunked run loses the phrase that straddles
the chunk boundary, because `line_buff` is re-initialized inside the
chunk `while` loop (parsing.py line 104) instead of before it, so the
buffer does not survive across chunk reads. -/
theorem c1_chunking_not_transparent :
    (processStream (readChunks CHUNK_SIZE c1_text)).emissions ≠
      (processStream [c1_text]).emissions := by
  rw [c1_chunked_emissions, c1_single_emissions]
  intro h
  have h2 := congrArg List.length h
  simp only [List.length_map, List.length_range'] at h2
  omega

/-! ## Invariant preservation -/

/-- A property preserved by every character step is preserved by a chunk
scan. -/
theorem processChunk_preserve (P : SegState → Prop)
    (hstep : ∀ st c, P st → P (processChar st c)) :
    ∀ (chunk : List Char) (st : SegState), P st → P (processChunk st chunk) := by
  intro chunk
  induction chunk with
  | nil => intro st h; exact h
  | cons c cs ih =>
    intro st h
    show P (processChunk (processChar st c) cs)
    exact ih _ (hstep st c h)

/-- A property preserved by character steps and buffer resets holds after
the whole chunk loop. -/
theorem processStream_preserve (P : SegState → Prop)
    (hstep : ∀ st c, P st → P (processChar st c))
    (hreset : ∀ st, P st → P { st with line_buff := [] })
    (hinit : P initState) :
    ∀ chunks, P (processStream chunks) := by
  intro chunks
  suffices h : ∀ st, P st →
      P (chunks.foldl (fun st chunk => processChunk { st with line_buff := [] } chunk) st) from
    h initState hinit
  induction chunks with
  | nil => intro st h; exact h
  | cons a as ih =>
    intro st h
    exact ih _ (processChunk_preserve P hstep a _ (hreset st h))

/-- Both emission paths test `len(line_buff) > LONG_ENOUGH` before
submitting, so emitted candidates stay long. -/
theorem processChar_emissionsLong (st : SegState) (c : Char) (h : emissionsLong st) :
    emissionsLong (processChar st c) := by
  unfold emissionsLong processChar at *
  split_ifs with h1 h2 h3 h4 h5 h6 <;> intro p hp
  · exact h p hp
  · exact h p hp
  · rcases List.mem_append.mp hp with hm | hm
    · exact h p hm
    · simp only [List.mem_singleton] at hm
      subst hm
      assumption
  · exact h p hp
  · rcases List.mem_append.mp hp with hm | hm
    · exact h p hm
    · simp only [List.mem_singleton] at hm
      subst hm
      assumption
  · exact h p hp
  · exact h p hp

/-- Each emission records the current `line_no` and then increments it,
so the emitted sequence numbers stay `0, 1, 2, ...`. -/
theorem processChar_seqInv (st : SegState) (c : Char) (h : seqInv st) :
    seqInv (processChar st c) := by
  obtain ⟨h1, h2⟩ := h
  unfold seqInv processChar
  split_ifs with ha hb hc hd he hf
  · exact ⟨h1, h2⟩
  · exact ⟨h1, h2⟩
  · constructor
    · simp [List.length_append, h1]
    · simp [List.map_append, h2, List.length_append, List.range_succ, h1]
  · exact ⟨h1, h2⟩
  · constructor
    · simp [List.length_append, h1]
    · simp [List.map_append, h2, List.length_append, List.range_succ, h1]
  · exact ⟨h1, h2⟩
  · exact ⟨h1, h2⟩

/-- The space separator the bad-character path inserts is itself clean. -/
theorem cleanChar_SPACE : cleanChar SPACE := by constructor <;> decide

/-- No step puts a bad character or a sentence marker into the buffer, and
emissions are snapshots of the buffer. -/
theorem processChar_cleanState (st : SegState) (c : Char) (h : cleanState st) :
    cleanState (processChar st c) := by
  obtain ⟨hbuf, hem⟩ := h
  unfold cleanState processChar
  split_ifs with ha hb hc hd he hf
  · exact ⟨hbuf, hem⟩
  · refine ⟨?_, hem⟩
    intro x hx
    rcases List.mem_append.mp hx with hm | hm
    · exact hbuf x hm
    · simp only [List.mem_singleton] at hm
      subst hm
      exact cleanChar_SPACE
  · refine ⟨by simp, ?_⟩
    intro p hp x hx
    rcases List.mem_append.mp hp with hm | hm
    · exact hem p hm x hx
    · simp only [List.mem_singleton] at hm
      subst hm
      exact hbuf x hx
  · refine ⟨?_, hem⟩
    intro x hx
    rcases List.mem_append.mp hx with hm | hm
    · exact hbuf x hm
    · simp only [List.mem_singleton] at hm
      subst hm
      exact ⟨(Bool.not_eq_true _) ▸ ha, (clause_not_bad_not_sentence x hc).2⟩
  · refine ⟨by simp, ?_⟩
    intro p hp x hx
    rcases List.mem_append.mp hp with hm | hm
    · exact hem p hm x hx
    · simp only [List.mem_singleton] at hm
      subst hm
      exact hbuf x hx
  · exact ⟨by simp, hem⟩
  · refine ⟨?_, hem⟩
    intro x hx
    rcases List.mem_append.mp hx with hm | hm
    · exact hbuf x hm
    · simp only [List.mem_singleton] at hm
      subst hm
      exact ⟨(Bool.not_eq_true _) ▸ ha, (Bool.not_eq_true _) ▸ he⟩

/-- Both emission paths append the emitted buffer to `ultimate_text`, so
the accumulator tracks the concatenation of all emissions. -/
theorem processChar_accumInv (st : SegState) (c : Char) (h : accumInv st) :
    accumInv (processChar st c) := by
  unfold accumInv processChar at *
  split_ifs with ha hb hc hd he hf
  · exact h
  · exact h
  · simp [List.map_append, List.flatten_append, h]
  · exact h
  · simp [List.map_append, List.flatten_append, h]
  · exact h
  · exact h

/-- Scanning a chunk with no clause and no sentence markers emits nothing
and leaves the document accumulator unchanged. -/
theorem processChunk_no_markers (chunk : List Char)
    (hm : ∀ c ∈ chunk, CLAUSE_MARKERS.contains c = false ∧ SENTENCE_MARKERS.contains c = false) :
    ∀ st : SegState, (processChunk st chunk).emissions = st.emissions ∧
      (processChunk st chunk).ultimate_text = st.ultimate_text := by
  induction chunk with
  | nil => intro st; exact ⟨rfl, rfl⟩
  | cons c cs ih =>
    intro st
    obtain ⟨hcl, hse⟩ := hm c (List.mem_cons_self c cs)
    have hm2 : ∀ x ∈ cs, CLAUSE_MARKERS.contains x = false ∧ SENTENCE_MARKERS.contains x = false :=
      fun x hx => hm x (List.mem_cons_of_mem c hx)
    have hstep : (processChar st c).emissions = st.emissions ∧
        (processChar st c).ultimate_text = st.ultimate_text := by
      unfold processChar
      split_ifs with h1 h2 h3 h4 h5 h6 <;>
        first
        | exact ⟨rfl, rfl⟩
        | simp_all
    obtain ⟨ih1, ih2⟩ := ih hm2 (processChar st c)
    show (processChunk (processChar st c) cs).emissions = st.emissions ∧
      (processChunk (processChar st c) cs).ultimate_text = st.ultimate_text
    rw [ih1, ih2, hstep.1, hstep.2]
    exact ⟨rfl, rfl⟩

/-! ## Claims -/

/-- Negation of a boolean equation from its refutation. -/
theorem bool_ne_true {b : Bool} (h : b = false) : ¬ (b = true) := by simp [h]

/-- Claim C4: for every input stream, every candidate emitted by the
streaming segmenter has buffered length strictly greater than
`LONG_ENOUGH` (20) at the moment of emission, on both the clause-marker
and the sentence-marker path. -/
theorem c4_emitted_longer_than_threshold (chunks : List (List Char))
    (p : Nat × List Char) (hp : p ∈ (processStream chunks).emissions) :
    LONG_ENOUGH < p.2.length := by
  have h := processStream_preserve emissionsLong processChar_emissionsLong
    (fun st h => h) (by intro p hp; simp [initState] at hp) chunks
  exact h p hp

/-- Witness for C4: the 21-letter candidate emitted by
`"twentycharacterslongg,"` is longer than the threshold. -/
theorem c4_witness :
    ((0, "twentycharacterslongg".toList) ∈
      (processStream ["twentycharacterslongg,".toList]).emissions) ∧
    LONG_ENOUGH < ("twentycharacterslongg".toList).length :=
  ⟨by decide, c4_emitted_longer_than_threshold ["twentycharacterslongg,".toList]
    (0, "twentycharacterslongg".toList) (by decide)⟩

/-- Claim C5: for every input stream, the sequence numbers attached to
emitted candidates are exactly `0, 1, 2, ...` in emission order (each
emission uses the current counter and then increments it), hence start
at 0 and are strictly increasing. -/
theorem c5_sequence_numbers (chunks : List (List Char)) :
    (processStream chunks).emissions.map Prod.fst =
      List.range (processStream chunks).emissions.length ∧
    ((processStream chunks).emissions.map Prod.fst).Pairwise (· < ·) := by
  have h := processStream_preserve seqInv processChar_seqInv
    (fun st h => h) (by exact ⟨rfl, rfl⟩) chunks
  refine ⟨h.2, ?_⟩
  rw [h.2]
  exact List.pairwise_lt_range _

/-- Claim C10 (implicit): every emitted candidate contains no filtered
(bad) character and no sentence-marker character. -/
theorem c10_emitted_text_clean (chunks : List (List Char))
    (p : Nat × List Char) (hp : p ∈ (processStream chunks).emissions)
    (c : Char) (hc : c ∈ p.2) :
    BAD_CHARS.contains c = false ∧ SENTENCE_MARKERS.contains c = false := by
  have h := processStream_preserve cleanState processChar_cleanState
    (fun st h => ⟨by simp, h.2⟩) ⟨by simp [initState], by simp [initState]⟩ chunks
  exact h.2 p hp c hc

/-- Witness for C10 at the character `t` of a concrete emission. -/
theorem c10_witness :
    ((0, "twentycharacterslongg".toList) ∈
      (processStream ["twentycharacterslongg,".toList]).emissions) ∧
    (Char.ofNat 116) ∈ ("twentycharacterslongg".toList) ∧
    BAD_CHARS.contains (Char.ofNat 116) = false ∧
    SENTENCE_MARKERS.contains (Char.ofNat 116) = false := by
  refine ⟨by decide, by decide, ?_⟩
  exact c10_emitted_text_clean ["twentycharacterslongg,".toList]
    (0, "twentycharacterslongg".toList) (by decide) (Char.ofNat 116) (by decide)

/-- Claim C2, amended: the document accumulator reflects both
clause-triggered and sentence-triggered emissions — after any input
stream it equals the concatenation of all emitted candidates in emission
order (parsing.py appends `line_buff` to `ultimate_text` on both marker
paths, lines 113 and 124). -/
theorem c2_amended_accumulator (chunks : List (List Char)) :
    (processStream chunks).ultimate_text =
      ((processStream chunks).emissions.map Prod.snd).flatten := by
  exact processStream_preserve accumInv processChar_accumInv
    (fun st h => h) (by simp [accumInv, initState]) chunks

/-- Counterexample to claim C2 as stated: `c2_text` contains no clause
marker, so its only emission is sentence-triggered, yet the document
accumulator ends up equal to that emitted segment instead of staying
empty — the sentence path does append to the accumulator. -/
theorem c2_counterexample :
    (∀ c ∈ c2_text, CLAUSE_MARKERS.contains c = false) ∧
    (processChunk initState c2_text).emissions =
      [(0, "this sentence is long enough".toList)] ∧
    (processChunk initState c2_text).ultimate_text =
      "this sentence is long enough".toList ∧
    (processChunk initState c2_text).ultimate_text ≠ [] := by
  refine ⟨by decide, by decide, by decide, by decide⟩

/-- Claim C6: a sentence-marker character resets the buffer to empty
whether or not an emission occurred, and a trailing chunk with no marker
characters (in particular any buffered tail at end of stream) produces
no emission and no accumulator change — there is no implicit flush. -/
theorem c6_sentence_reset_no_flush :
    (∀ (st : SegState) (c : Char), SENTENCE_MARKERS.contains c = true →
      (processChar st c).line_buff = []) ∧
    (∀ (chunks : List (List Char)) (trailing : List Char),
      (∀ c ∈ trailing, CLAUSE_MARKERS.contains c = false ∧
        SENTENCE_MARKERS.contains c = false) →
      (processStream (chunks ++ [trailing])).emissions = (processStream chunks).emissions ∧
      (processStream (chunks ++ [trailing])).ultimate_text =
        (processStream chunks).ultimate_text) := by
  constructor
  · intro st c h
    obtain ⟨hb, hc⟩ := sentence_not_bad_not_clause c h
    have hb2 : ¬ (BAD_CHARS.contains c = true) := bool_ne_true hb
    have hc2 : ¬ (CLAUSE_MARKERS.contains c = true) := bool_ne_true hc
    unfold processChar
    rw [if_neg hb2, if_neg hc2, if_pos h]
    by_cases hl : st.line_buff.length > LONG_ENOUGH
    · rw [if_pos hl]
    · rw [if_neg hl]
  · intro chunks trailing hm
    have hfold : processStream (chunks ++ [trailing]) =
        processChunk { processStream chunks with line_buff := [] } trailing := by
      show List.foldl _ initState (chunks ++ [trailing]) = _
      rw [List.foldl_append]
      rfl
    rw [hfold]
    obtain ⟨he, hu⟩ := processChunk_no_markers trailing hm
      { processStream chunks with line_buff := [] }
    exact ⟨he, hu⟩

/-- Witness for C6: a period on a short buffer resets it with no
emission, and a marker-free trailing chunk adds no emission. -/
theorem c6_witness :
    (SENTENCE_MARKERS.contains (Char.ofNat 46) = true ∧
      (processChar ⟨3, "doc".toList, "short buffer".toList, []⟩ (Char.ofNat 46)).line_buff
        = []) ∧
    ((∀ c ∈ ("no markers here".toList), CLAUSE_MARKERS.contains c = false ∧
        SENTENCE_MARKERS.contains c = false) ∧
      (processStream (["aaaaaaaaaaaaaaaaaaaaa,".toList] ++
          ["no markers here".toList])).emissions =
        (processStream ["aaaaaaaaaaaaaaaaaaaaa,".toList]).emissions) :=
  ⟨⟨by decide, c6_sentence_reset_no_flush.1 ⟨3, "doc".toList, "short buffer".toList, []⟩
      (Char.ofNat 46) (by decide)⟩,
   ⟨by decide, (c6_sentence_reset_no_flush.2 ["aaaaaaaaaaaaaaaaaaaaa,".toList]
      ("no markers here".toList) (by decide)).1⟩⟩

/-- Claim C7: at a clause-marker character, a buffer longer than the
threshold is emitted as one candidate and reset, and otherwise the
marker itself is appended to the buffer; concretely `"short,"` leaves
the buffer `"short,"` with no emission while `"twentycharacterslongg,"`
emits `"twentycharacterslongg"`. -/
theorem c7_clause_marker_behavior :
    (∀ (st : SegState) (c : Char), CLAUSE_MARKERS.contains c = true →
      (LONG_ENOUGH < st.line_buff.length →
        processChar st c = { st with
                             ultimate_text := st.ultimate_text ++ st.line_buff,
                             emissions := st.emissions ++ [(st.line_no, st.line_buff)],
                             line_no := st.line_no + 1,
                             line_buff := [] }) ∧
      (¬ LONG_ENOUGH < st.line_buff.length →
        processChar st c = { st with line_buff := st.line_buff ++ [c] })) ∧
    (processChunk initState ("short,".toList)).line_buff = "short,".toList ∧
    (processChunk initState ("short,".toList)).emissions = [] ∧
    (processChunk initState ("twentycharacterslongg,".toList)).emissions =
      [(0, "twentycharacterslongg".toList)] := by
  refine ⟨?_, by decide, by decide, by decide⟩
  intro st c h
  obtain ⟨hb, hs⟩ := clause_not_bad_not_sentence c h
  have hb2 : ¬ (BAD_CHARS.contains c = true) := bool_ne_true hb
  constructor <;> intro hl
  · unfold processChar
    rw [if_neg hb2, if_pos h, if_pos hl]
  · unfold processChar
    rw [if_neg hb2, if_pos h, if_neg hl]

/-- Witness for C7: the comma on a 21-character buffer emits it; the
comma on a 5-character buffer is retained in the buffer. -/
theorem c7_witness :
    (CLAUSE_MARKERS.contains (Char.ofNat 44) = true ∧
      LONG_ENOUGH < ("twentycharacterslongg".toList).length ∧
      processChar ⟨0, [], "twentycharacterslongg".toList, []⟩ (Char.ofNat 44) =
        ⟨1, "twentycharacterslongg".toList, [], [(0, "twentycharacterslongg".toList)]⟩) ∧
    (CLAUSE_MARKERS.contains (Char.ofNat 44) = true ∧
      ¬ LONG_ENOUGH < ("short".toList).length ∧
      processChar ⟨0, [], "short".toList, []⟩ (Char.ofNat 44) =
        ⟨0, [], "short,".toList, []⟩) := by
  constructor
  · refine ⟨by decide, by decide, ?_⟩
    rw [(c7_clause_marker_behavior.1 ⟨0, [], "twentycharacterslongg".toList, []⟩
      (Char.ofNat 44) (by decide)).1 (by decide)]
    rfl
  · refine ⟨by decide, by decide, ?_⟩
    rw [(c7_clause_marker_behavior.1 ⟨0, [], "short".toList, []⟩
      (Char.ofNat 44) (by decide)).2 (by decide)]
    decide

/-- Claim C8: a filtered character appends a single space only when the
buffer does not already end with a space and is otherwise dropped, so
runs of filtered characters collapse to at most one space; concretely
`"a((()))b"` yields buffer `"a b"`. -/
theorem c8_filtered_collapse_to_one_space :
    (∀ (st : SegState) (c : Char), BAD_CHARS.contains c = true →
      (endsWithSpace st.line_buff = true → processChar st c = st) ∧
      (endsWithSpace st.line_buff = false →
        processChar st c = { st with line_buff := st.line_buff ++ [SPACE] })) ∧
    (processChunk initState ("a((()))b".toList)).line_buff = "a b".toList := by
  refine ⟨?_, by decide⟩
  intro st c h
  constructor <;> intro he
  · unfold processChar
    rw [if_pos h, if_pos he]
  · unfold processChar
    rw [if_pos h, if_neg (bool_ne_true he)]

/-- Witness for C8: a parenthesis after `"a"` appends one space; another
after `"a "` is dropped. -/
theorem c8_witness :
    (BAD_CHARS.contains (Char.ofNat 40) = true ∧
      endsWithSpace ("a".toList) = false ∧
      processChar ⟨0, [], "a".toList, []⟩ (Char.ofNat 40) = ⟨0, [], "a ".toList, []⟩) ∧
    (BAD_CHARS.contains (Char.ofNat 41) = true ∧
      endsWithSpace ("a ".toList) = true ∧
      processChar ⟨0, [], "a ".toList, []⟩ (Char.ofNat 41) = ⟨0, [], "a ".toList, []⟩) := by
  constructor
  · refine ⟨by decide, by decide, ?_⟩
    rw [(c8_filtered_collapse_to_one_space.1 ⟨0, [], "a".toList, []⟩
      (Char.ofNat 40) (by decide)).2 (by decide)]
    decide
  · refine ⟨by decide, by decide, ?_⟩
    rw [(c8_filtered_collapse_to_one_space.1 ⟨0, [], "a ".toList, []⟩
      (Char.ofNat 41) (by decide)).1 (by decide)]

/-- If some unit in the completion order fails, the barrier loop does not
return `none`. -/
theorem firstFailure_ne_none (outcome : Nat × List Char → Option WorkerErr)
    (l : List (Nat × List Char)) (u : Nat × List Char) (hu : u ∈ l)
    (hfail : outcome u ≠ none) : firstFailure outcome l ≠ none := by
  induction l with
  | nil => simp at hu
  | cons a as ih =>
    rcases List.mem_cons.mp hu with rfl | hmem
    · unfold firstFailure
      cases h : outcome u with
      | some e => simp
      | none => exact absurd h hfail
    · unfold firstFailure
      cases h : outcome a with
      | some e => simp
      | none => exact ih hmem

/-- Claim C3: if some submitted worker unit fails, the ingest call raises
exactly the first worker error observed in completion order; the phrase
rows of units that succeeded are left in place (all submitted units run
to completion, nothing is rolled back), and the source's final content
write is skipped, leaving the content field at its initial empty value. -/
theorem c3_first_error_partial_writes
    (outcome : Nat × List Char → Option WorkerErr) (order : List (Nat × List Char))
    (chunks : List (List Char))
    (hord : ∀ u ∈ (processStream chunks).emissions, u ∈ order)
    (hfail : ∃ u ∈ (processStream chunks).emissions, outcome u ≠ none) :
    (process_text_stream outcome order chunks).err = firstFailure outcome order ∧
    (process_text_stream outcome order chunks).err ≠ none ∧
    (process_text_stream outcome order chunks).phrases =
      (processStream chunks).emissions.filter (fun u => (outcome u).isNone) ∧
    (process_text_stream outcome order chunks).content = [] := by
  obtain ⟨u, hu, hfu⟩ := hfail
  have hne := firstFailure_ne_none outcome order u (hord u hu) hfu
  unfold process_text_stream
  cases h : firstFailure outcome order with
  | none => exact absurd h hne
  | some e => simp [h]

/-- Witness for C3: three submitted units of which the one with sequence
number 1 fails; the call surfaces an error and the content stays empty. -/
theorem c3_witness :
    (∀ u ∈ (processStream c3_chunks).emissions, u ∈ c3_order) ∧
    (∃ u ∈ (processStream c3_chunks).emissions, c3_outcome u ≠ none) ∧
    (process_text_stream c3_outcome c3_order c3_chunks).err ≠ none ∧
    (process_text_stream c3_outcome c3_order c3_chunks).content = [] :=
  ⟨by decide, by decide,
   (c3_first_error_partial_writes c3_outcome c3_order c3_chunks
     (by decide) (by decide)).2.1,
   (c3_first_error_partial_writes c3_outcome c3_order c3_chunks
     (by decide) (by decide)).2.2.2⟩

/-- Claim C9: one worker unit performs exactly one durable write when it
succeeds (the single phrase row, committed last), and zero writes when
source resolution or any analyzer step fails. -/
theorem c9_one_write_on_success_none_on_failure
    (nlp : Nlp) (sources : List Nat) (source_id line_no : Nat) (line : List Char) :
    ((process_line nlp sources source_id line_no line).2 = none →
      ∃ stems rhyme syllables alliteration,
        (process_line nlp sources source_id line_no line).1 =
          [{ stems := stems, raw := line, alliteration := alliteration,
             rhyme_sound := rhyme, syllables := syllables,
             line_no := line_no, source_id := source_id }]) ∧
    ((process_line nlp sources source_id line_no line).2 ≠ none →
      (process_line nlp sources source_id line_no line).1 = []) := by
  by_cases hs : sources.contains source_id
  · simp only [process_line, hs, if_true]
    cases h1 : nlp.stem_sentence line with
    | error e => simp
    | ok stems =>
      cases h2 : nlp.rhyme_sound line with
      | error e => simp
      | ok rhyme =>
        cases h3 : nlp.count_syllables line with
        | error e => simp
        | ok syllables =>
          cases h4 : nlp.has_alliteration line with
          | error e => simp
          | ok alliteration =>
            exact ⟨fun _ => ⟨stems, rhyme, syllables, alliteration, rfl⟩,
                   fun h => absurd rfl h⟩
  · unfold process_line
    rw [if_neg hs]
    simp

/-- Witness for C9: with an all-succeeding analyzer the unit writes one
row; with a failing syllable counter it writes nothing. -/
theorem c9_witness :
    ((process_line okNlp [7] 7 3 ("hi there".toList)).2 = none ∧
      ∃ stems rhyme syllables alliteration,
        (process_line okNlp [7] 7 3 ("hi there".toList)).1 =
          [{ stems := stems, raw := "hi there".toList, alliteration := alliteration,
             rhyme_sound := rhyme, syllables := syllables,
             line_no := 3, source_id := 7 }]) ∧
    ((process_line failNlp [7] 7 3 ("hi there".toList)).2 ≠ none ∧
      (process_line failNlp [7] 7 3 ("hi there".toList)).1 = []) :=
  ⟨⟨by decide, (c9_one_write_on_success_none_on_failure okNlp [7] 7 3
      ("hi there".toList)).1 (by decide)⟩,
   ⟨by decide, (c9_one_write_on_success_none_on_failure failNlp [7] 7 3
      ("hi there".toList)).2 (by decide)⟩⟩

end Prosaic
